import Mathlib

/-!
Shallow embedding of the opentelemetry-rust batching log pipeline:
`opentelemetry-sdk/src/logs/log_processor.rs` (SimpleLogProcessor,
BatchLogProcessor, the batch worker loop, BatchConfig/BatchConfigBuilder)
and `demo_code.rs` (LogManager fan-out chain).

Machine integers (`usize`, `u64`) are modelled as `Nat` with explicit upper
bounds where Rust parsing would overflow; `Duration` values are modelled as
their millisecond counts.
-/

namespace OtelSdk

/-- Errors of the log pipeline (`opentelemetry::logs::LogError`), restricted
to the variants the embedded code produces: `Other(message)` and
`ExportTimedOut(duration)`. -/
inductive LogError where
  | other (msg : String)
  | exportTimedOut (timeoutMillis : Nat)
deriving DecidableEq, Repr

instance decEqExcept {ε α : Type} [DecidableEq ε] [DecidableEq α] :
    DecidableEq (Except ε α) := fun a b =>
  match a, b with
  | .ok x, .ok y =>
    if h : x = y then .isTrue (by rw [h]) else .isFalse (by simp [h])
  | .ok _, .error _ => .isFalse (by simp)
  | .error _, .ok _ => .isFalse (by simp)
  | .error e, .error f =>
    if h : e = f then .isTrue (by rw [h]) else .isFalse (by simp [h])

/-- `ExportResult = Result<(), LogError>` from `export/logs/mod.rs`. -/
def ExportResult : Type := Except LogError Unit

instance : DecidableEq ExportResult := decEqExcept

/-- `LogResult<()> = Result<(), LogError>`. -/
def LogResult : Type := Except LogError Unit

instance : DecidableEq LogResult := decEqExcept

/-- A process-describing key-value set (`Resource`); its internals are never
inspected by the embedded code, which only passes it through. -/
structure Resource where
  attrs : List (String × String)
deriving DecidableEq, Repr

/-! ### Batch configuration (`BatchConfig`, `BatchConfigBuilder`) -/

/-- Environment variable name for the schedule delay. -/
def OTEL_BLRP_SCHEDULE_DELAY : String := "OTEL_BLRP_SCHEDULE_DELAY"

/-- Default delay interval between two consecutive exports, in milliseconds. -/
def OTEL_BLRP_SCHEDULE_DELAY_DEFAULT : Nat := 1000

/-- Environment variable name for the export timeout. -/
def OTEL_BLRP_EXPORT_TIMEOUT : String := "OTEL_BLRP_EXPORT_TIMEOUT"

/-- Default maximum allowed time to export data, in milliseconds. -/
def OTEL_BLRP_EXPORT_TIMEOUT_DEFAULT : Nat := 30000

/-- Environment variable name for the maximum queue size. -/
def OTEL_BLRP_MAX_QUEUE_SIZE : String := "OTEL_BLRP_MAX_QUEUE_SIZE"

/-- Default maximum queue size. -/
def OTEL_BLRP_MAX_QUEUE_SIZE_DEFAULT : Nat := 2048

/-- Environment variable name for the maximum export batch size. -/
def OTEL_BLRP_MAX_EXPORT_BATCH_SIZE : String := "OTEL_BLRP_MAX_EXPORT_BATCH_SIZE"

/-- Default maximum batch size. -/
def OTEL_BLRP_MAX_EXPORT_BATCH_SIZE_DEFAULT : Nat := 512

/-- `usize::MAX` on the 64-bit targets the crate supports. -/
def USIZE_MAX : Nat := 2 ^ 64 - 1

/-- `u64::MAX`. -/
def U64_MAX : Nat := 2 ^ 64 - 1

/-- Value of a decimal digit character, `none` for a non-digit. -/
def charDigit (c : Char) : Option Nat :=
  if c.isDigit then some (c.toNat - 48) else none

/-- Accumulate the decimal value of a character list; `none` on the first
non-digit character. -/
def digitsVal : List Char → Nat → Option Nat
  | [], acc => some acc
  | c :: cs, acc =>
    match charDigit c with
    | some d => digitsVal cs (10 * acc + d)
    | none => none

/-- Rust's `FromStr` for an unsigned integer type with maximum value
`maxVal` (e.g. `usize::from_str`, `u64::from_str`): an optional leading
`'+'`, then at least one decimal digit and nothing else; overflow
(`v > maxVal`) is an error. -/
def rustParseUnsigned (maxVal : Nat) (s : String) : Option Nat :=
  let cs :=
    match s.toList with
    | '+' :: rest => rest
    | other => other
  match cs with
  | [] => none
  | _ =>
    match digitsVal cs 0 with
    | some v => if v ≤ maxVal then some v else none
    | none => none

/-- `BatchConfig` from `log_processor.rs`: queue bound, timer period (ms),
size-triggered export threshold, per-export deadline (ms). -/
structure BatchConfig where
  max_queue_size : Nat
  scheduled_delay : Nat
  max_export_batch_size : Nat
  max_export_timeout : Nat
deriving DecidableEq, Repr

/-- `BatchConfigBuilder` from `log_processor.rs`: the four knobs before the
clamping `build` step. -/
structure BatchConfigBuilder where
  max_queue_size : Nat
  scheduled_delay : Nat
  max_export_batch_size : Nat
  max_export_timeout : Nat
deriving DecidableEq, Repr

/-- `BatchConfigBuilder::build`: clamps `max_export_batch_size` to
`max_queue_size` via `min`, passes the other three fields through. -/
def BatchConfigBuilder.build (b : BatchConfigBuilder) : BatchConfig :=
  { max_queue_size := b.max_queue_size
    scheduled_delay := b.scheduled_delay
    max_export_timeout := b.max_export_timeout
    max_export_batch_size := min b.max_export_batch_size b.max_queue_size }

/-- `BatchConfigBuilder::init_from_env_vars`, over an explicit environment
`env : String → Option String` standing for `std::env::var(..).ok()`.
Each variable overrides its field only when it parses (`usize` for the two
sizes, `u64` milliseconds for the two durations); otherwise the existing
value is kept. Fields are read in source order. -/
def BatchConfigBuilder.init_from_env_vars (env : String → Option String)
    (b : BatchConfigBuilder) : BatchConfigBuilder :=
  let b :=
    match (env OTEL_BLRP_MAX_QUEUE_SIZE).bind (rustParseUnsigned USIZE_MAX) with
    | some v => { b with max_queue_size := v }
    | none => b
  let b :=
    match (env OTEL_BLRP_MAX_EXPORT_BATCH_SIZE).bind (rustParseUnsigned USIZE_MAX) with
    | some v => { b with max_export_batch_size := v }
    | none => b
  let b :=
    match (env OTEL_BLRP_SCHEDULE_DELAY).bind (rustParseUnsigned U64_MAX) with
    | some v => { b with scheduled_delay := v }
    | none => b
  let b :=
    match (env OTEL_BLRP_EXPORT_TIMEOUT).bind (rustParseUnsigned U64_MAX) with
    | some v => { b with max_export_timeout := v }
    | none => b
  b

/-- `BatchConfigBuilder::default`: the four spec defaults, then the
environment overrides. -/
def BatchConfigBuilder.defaultWith (env : String → Option String) : BatchConfigBuilder :=
  BatchConfigBuilder.init_from_env_vars env
    { max_queue_size := OTEL_BLRP_MAX_QUEUE_SIZE_DEFAULT
      scheduled_delay := OTEL_BLRP_SCHEDULE_DELAY_DEFAULT
      max_export_batch_size := OTEL_BLRP_MAX_EXPORT_BATCH_SIZE_DEFAULT
      max_export_timeout := OTEL_BLRP_EXPORT_TIMEOUT_DEFAULT }

/-- `BatchConfig::default` under an explicit environment. -/
def BatchConfig.defaultWith (env : String → Option String) : BatchConfig :=
  (BatchConfigBuilder.defaultWith env).build

/-! ### The control-message channel

`RuntimeChannel`/`TrySend` live in `runtime.rs`, outside the sources at
hand; the channel is modelled from the spec. -/

/-- Failure modes of a non-blocking send on the bounded channel. -/
inductive TrySendError where
  | channelFull
  | channelClosed
deriving DecidableEq, Repr

/-- Display text of a `TrySendError`, as fed into `LogError::Other`. -/
def TrySendError.message : TrySendError → String
  | .channelFull => "cannot send message to batch processor as the channel is full"
  | .channelClosed => "cannot send message to batch processor as the channel is closed"

/-- Modelled from the spec: the bounded multi-producer/single-consumer
message channel created by `runtime.batch_message_channel(max_queue_size)`
(`runtime.rs` is not among the sources). `capacity` is the bound,
`queue` the pending messages, `closed` whether the receiver (the worker)
has terminated. -/
structure BoundedChannel (α : Type) where
  capacity : Nat
  queue : List α
  closed : Bool
deriving Repr

/-- Modelled from the spec: the non-blocking `try_send`. It fails
immediately when the worker has terminated (channel closed) or when the
queue already holds `capacity` messages; otherwise the message is appended
to the queue. It never blocks. -/
def try_send {α : Type} (ch : BoundedChannel α) (x : α) :
    BoundedChannel α × Option TrySendError :=
  if ch.closed then (ch, some .channelClosed)
  else if ch.capacity ≤ ch.queue.length then (ch, some .channelFull)
  else ({ ch with queue := ch.queue ++ [x] }, none)

/-! ### Batch processor messages and producer-facing calls -/

/-- `BatchMessage` from `log_processor.rs`. Records are kept abstract in the
type parameter `Rec` (standing for the pair `(LogRecord,
InstrumentationLibrary)`); reply channels are represented by whether one is
present, since the worker writes at most one result to each. -/
inductive BatchMessage (Rec : Type) where
  | ExportLog (log : Rec)
  | Flush (hasReply : Bool)
  | Shutdown
  | SetResource (res : Resource)
deriving Repr

/-- `BatchLogProcessor::emit`: clone the record, `try_send` an `ExportLog`
message, and on failure hand a `LogError::Other` to
`global::handle_error`. Returns the updated channel and the errors reported
to the global sink; nothing is returned to the caller. -/
def BatchLogProcessor.emit {Rec : Type} (ch : BoundedChannel (BatchMessage Rec))
    (record : Rec) : BoundedChannel (BatchMessage Rec) × List LogError :=
  match try_send ch (.ExportLog record) with
  | (ch', none) => (ch', [])
  | (ch', some err) => (ch', [.other err.message])

/-- `BatchLogProcessor::force_flush`: create a one-shot reply channel,
`try_send` a `Flush(Some(reply))` message — returning the send error
immediately on failure — then block on the reply. `workerReply` is the
result the worker eventually sends on the one-shot channel (`none` when the
worker drops the sender without replying, which surfaces as a `Canceled`
receive error). -/
def BatchLogProcessor.force_flush {Rec : Type}
    (ch : BoundedChannel (BatchMessage Rec)) (workerReply : Option ExportResult) :
    BoundedChannel (BatchMessage Rec) × Except LogError Unit :=
  match try_send ch (.Flush true) with
  | (ch', some err) => (ch', .error (.other err.message))
  | (ch', none) =>
    (ch',
      match workerReply with
      | none => .error (.other "oneshot canceled")
      | some r => r)

/-- `BatchLogProcessor::shutdown`: identical structure to `force_flush`,
sending a `Shutdown(reply)` message. -/
def BatchLogProcessor.shutdown {Rec : Type}
    (ch : BoundedChannel (BatchMessage Rec)) (workerReply : Option ExportResult) :
    BoundedChannel (BatchMessage Rec) × Except LogError Unit :=
  match try_send ch (.Shutdown : BatchMessage Rec) with
  | (ch', some err) => (ch', .error (.other err.message))
  | (ch', none) =>
    (ch',
      match workerReply with
      | none => .error (.other "oneshot canceled")
      | some r => r)

/-! ### Export with timeout and the worker loop -/

/-- Outcome of the `future::select(export, timeout)` race for one batch:
either the exporter's `export` future completes first with its result, or
the `max_export_timeout` delay completes first. The winner is an input to
the model (it depends on real time), the consequences are computed. -/
inductive RaceOutcome where
  | exporterFirst (res : ExportResult)
  | timeoutFirst

/-- `export_with_timeout` from `log_processor.rs`: an empty batch returns
`Ok(())` without calling the exporter; otherwise the exporter's `export` is
started on the batch and raced against a `time_out` delay — the exporter's
own result if it finishes first, `LogError::ExportTimedOut(time_out)` if
the timeout wins. The second component records the batches actually handed
to `exporter.export` (exactly one here; the in-flight data is never handed
to it again). -/
def export_with_timeout {Rec : Type} (time_out : Nat)
    (exporter : List Rec → RaceOutcome) (batch : List Rec) :
    ExportResult × List (List Rec) :=
  if batch.isEmpty then (.ok (), [])
  else
    match exporter batch with
    | .exporterFirst res => (res, [batch])
    | .timeoutFirst => (.error (.exportTimedOut time_out), [batch])

/-- State owned by the batch worker spawned in `BatchLogProcessor::new`:
the local accumulation buffer `logs`, whether `exporter.shutdown()` has
been called, the exporter's cached resource, and whether the loop has
`break`-ed (only the `Shutdown` branch does). -/
structure WorkerState (Rec : Type) where
  logs : List Rec
  exporterShutdownCalled : Bool
  exporterResource : Option Resource
  terminated : Bool
deriving Repr

/-- The worker's initial state: empty buffer, exporter untouched. -/
def initialWorkerState (Rec : Type) : WorkerState Rec :=
  { logs := [], exporterShutdownCalled := false, exporterResource := none,
    terminated := false }

/-- Observable effects of processing worker messages: batches handed to
`exporter.export`, results sent on reply channels, and errors handed to
`global::handle_error`. -/
structure WorkerOutput (Rec : Type) where
  exports : List (List Rec)
  replies : List ExportResult
  sink : List LogError

/-- The empty effect record. -/
def WorkerOutput.none (Rec : Type) : WorkerOutput Rec :=
  { exports := [], replies := [], sink := [] }

/-- Concatenation of effect records, in temporal order. -/
def WorkerOutput.append {Rec : Type} (a b : WorkerOutput Rec) : WorkerOutput Rec :=
  { exports := a.exports ++ b.exports, replies := a.replies ++ b.replies,
    sink := a.sink ++ b.sink }

/-- One iteration of the worker loop in `BatchLogProcessor::new`, on a
message drawn from the merged message/ticker stream (a timer tick arrives
as `Flush(None)`, i.e. `Flush false` here):

* `ExportLog`: push onto `logs`; if `logs.len() == max_export_batch_size`,
  export `logs.split_off(0)` (the whole buffer, leaving it empty) under the
  timeout, reporting an `Err` to `global::handle_error`.
* `Flush`: export `logs.split_off(0)`; send the result on the reply channel
  when there is one, otherwise report an `Err` to `global::handle_error`.
* `Shutdown`: export `logs.split_off(0)`, call `exporter.shutdown()`, send
  the result on the reply channel, and `break` out of the loop.
* `SetResource`: forward to `exporter.set_resource`. -/
def worker_step {Rec : Type} (cfg : BatchConfig)
    (exporter : List Rec → RaceOutcome) (st : WorkerState Rec) :
    BatchMessage Rec → WorkerState Rec × WorkerOutput Rec
  | .ExportLog log =>
    let logs := st.logs ++ [log]
    if logs.length = cfg.max_export_batch_size then
      let (result, calls) :=
        export_with_timeout cfg.max_export_timeout exporter logs
      ({ st with logs := [] },
        { exports := calls, replies := [],
          sink := match result with | .error err => [err] | .ok _ => [] })
    else
      ({ st with logs := logs }, WorkerOutput.none Rec)
  | .Flush hasReply =>
    let (result, calls) :=
      export_with_timeout cfg.max_export_timeout exporter st.logs
    ({ st with logs := [] },
      if hasReply then { exports := calls, replies := [result], sink := [] }
      else
        { exports := calls, replies := [],
          sink := match result with | .error err => [err] | .ok _ => [] })
  | .Shutdown =>
    let (result, calls) :=
      export_with_timeout cfg.max_export_timeout exporter st.logs
    ({ st with logs := [], exporterShutdownCalled := true, terminated := true },
      { exports := calls, replies := [result], sink := [] })
  | .SetResource res =>
    ({ st with exporterResource := some res }, WorkerOutput.none Rec)

/-- Run the worker loop over a finite message sequence; after the
`Shutdown` branch has `break`-ed, remaining messages are not processed. -/
def worker_run {Rec : Type} (cfg : BatchConfig)
    (exporter : List Rec → RaceOutcome) (st : WorkerState Rec) :
    List (BatchMessage Rec) → WorkerState Rec × WorkerOutput Rec
  | [] => (st, WorkerOutput.none Rec)
  | msg :: rest =>
    if st.terminated then (st, WorkerOutput.none Rec)
    else
      let (st', out) := worker_step cfg exporter st msg
      let (st'', outs) := worker_run cfg exporter st' rest
      (st'', out.append outs)

/-! ### Simple (pass-through) processor -/

/-- Model of the boxed `LogExporter` owned by a `SimpleLogProcessor`:
`received` accumulates every record handed to `export`, `shutdownCalled`
records whether `shutdown` ran, `exportOutcome` is the result `export`
returns for a given batch, `resource` the cached resource. -/
structure SimpleExporter (Rec : Type) where
  received : List Rec
  shutdownCalled : Bool
  exportOutcome : List Rec → ExportResult
  resource : Option Resource

/-- `SimpleLogProcessor` from `log_processor.rs`: the exporter behind its
mutex plus the `is_shutdown` atomic flag. The mutex is modelled as
uncontended and never poisoned (poisoning needs a panicking holder; the
embedded code never panics). -/
structure SimpleLogProcessor (Rec : Type) where
  exporter : SimpleExporter Rec
  is_shutdown : Bool

/-- `SimpleLogProcessor::new`. -/
def SimpleLogProcessor.new {Rec : Type} (exporter : SimpleExporter Rec) :
    SimpleLogProcessor Rec :=
  { exporter := exporter, is_shutdown := false }

/-- `SimpleLogProcessor::emit`: no-op when the `is_shutdown` flag is set;
otherwise lock the exporter, export the one-element batch on the caller's
thread, and hand any `Err` to `global::handle_error`. The second component
is the list of errors reported to the global sink; nothing is returned to
the caller. -/
def SimpleLogProcessor.emit {Rec : Type} (p : SimpleLogProcessor Rec)
    (record : Rec) : SimpleLogProcessor Rec × List LogError :=
  if p.is_shutdown then (p, [])
  else
    let batch := [record]
    let result := p.exporter.exportOutcome batch
    let p' := { p with exporter :=
      { p.exporter with received := p.exporter.received ++ batch } }
    match result with
    | .ok _ => (p', [])
    | .error err => (p', [err])

/-- Sequence of `SimpleLogProcessor::emit` calls, accumulating the errors
reported to the global sink. -/
def SimpleLogProcessor.emitMany {Rec : Type} (p : SimpleLogProcessor Rec) :
    List Rec → SimpleLogProcessor Rec × List LogError
  | [] => (p, [])
  | r :: rs =>
    let (p', errs) := p.emit r
    let (p'', rest) := p'.emitMany rs
    (p'', errs ++ rest)

/-- `SimpleLogProcessor::force_flush`: nothing is buffered, `Ok(())`. -/
def SimpleLogProcessor.force_flush {Rec : Type} (_p : SimpleLogProcessor Rec) :
    Except LogError Unit :=
  .ok ()

/-- `SimpleLogProcessor::shutdown`: store `true` into the `is_shutdown`
flag, then lock the exporter and forward to `exporter.shutdown()`,
returning `Ok(())` (the lock never fails in the unpoisoned model). -/
def SimpleLogProcessor.shutdown {Rec : Type} (p : SimpleLogProcessor Rec) :
    SimpleLogProcessor Rec × Except LogError Unit :=
  let p := { p with is_shutdown := true }
  ({ p with exporter := { p.exporter with shutdownCalled := true } }, .ok ())

end OtelSdk

namespace OtelDemo

/-!
Embedding of `demo_code.rs`: the macro-expanded `ExtendedLogProcessors`
enum (re-exported as `LogProcessors`, with variants `Simple`, `Batch`,
`Processor1`, `Processor2`) and the `LogManager` fan-out chain.

`LogData` is kept abstract in a type parameter `D`: a `&mut LogData`
argument becomes state passing `D → D`, so a `Box<dyn LogProcessor>` in
the `Batch` variant may mutate the record. Each `_all` loop additionally
returns the sequence of processors whose method the loop invoked, in
invocation order.
-/

/-- `demo_code.rs`'s `LogError`: a fieldless unit struct. -/
structure LogError where
deriving DecidableEq, Repr

/-- `Severity` from `demo_code.rs`. -/
inductive Severity where
  | error
  | warn
  | info
  | debug
  | trace
deriving DecidableEq, Repr

/-- A `Box<dyn LogProcessor>` trait object held by the `Batch` variant: an
arbitrary implementation of the `LogProcessor` trait. `emit` may mutate
the record (`D → D`); the results of `force_flush` and `shutdown` and the
`event_enabled` predicate are those of the boxed implementation. -/
structure DynLogProcessor (D : Type) where
  emit : D → D
  force_flush : Except LogError Unit
  shutdown : Except LogError Unit
  event_enabled : Severity → String → String → Bool

/-- The macro-expanded `ExtendedLogProcessors` enum, re-exported as
`LogProcessors` by `extend_log_processors!(Processor1(Processor1),
Processor2(Processor2),)`. -/
inductive LogProcessors (D : Type) where
  | Simple
  | Batch (p : DynLogProcessor D)
  | Processor1
  | Processor2

/-- `LogProcessors::emit`, dispatching to the variant's `emit`.
`SimpleLogProcessor`, `Processor1` and `Processor2` only print a line and
leave the record untouched. -/
def LogProcessors.emit {D : Type} : LogProcessors D → D → D
  | .Simple, d => d
  | .Batch p, d => p.emit d
  | .Processor1, d => d
  | .Processor2, d => d

/-- `LogProcessors::force_flush`: the concrete demo processors return
`Ok(())`; the `Batch` trait object returns its own result. -/
def LogProcessors.force_flush {D : Type} : LogProcessors D → Except LogError Unit
  | .Simple => .ok ()
  | .Batch p => p.force_flush
  | .Processor1 => .ok ()
  | .Processor2 => .ok ()

/-- `LogProcessors::shutdown`: the concrete demo processors return
`Ok(())`; the `Batch` trait object returns its own result. -/
def LogProcessors.shutdown {D : Type} : LogProcessors D → Except LogError Unit
  | .Simple => .ok ()
  | .Batch p => p.shutdown
  | .Processor1 => .ok ()
  | .Processor2 => .ok ()

/-- `LogProcessors::event_enabled`: the concrete demo processors always
return `true`; the `Batch` trait object consults its own predicate. -/
def LogProcessors.event_enabled {D : Type} (lp : LogProcessors D)
    (level : Severity) (target name : String) : Bool :=
  match lp with
  | .Simple => true
  | .Batch p => p.event_enabled level target name
  | .Processor1 => true
  | .Processor2 => true

/-- `LogManager` from `demo_code.rs`: the ordered processor list. -/
structure LogManager (D : Type) where
  processors : List (LogProcessors D)

/-- `LogManager::new`: starts with the single built-in
`LogProcessors::Simple(SimpleLogProcessor)` entry. -/
def LogManager.new (D : Type) : LogManager D :=
  { processors := [.Simple] }

/-- `LogManager::add_processor`: push onto the end of the list. -/
def LogManager.add_processor {D : Type} (m : LogManager D)
    (p : LogProcessors D) : LogManager D :=
  { m with processors := m.processors ++ [p] }

/-- The `for processor in &self.processors { processor.emit(data) }` loop of
`LogManager::emit_all`: thread the mutable record through each processor's
`emit` in list order, recording the invocation sequence. -/
def emitLoop {D : Type} : List (LogProcessors D) → D → D × List (LogProcessors D)
  | [], d => (d, [])
  | p :: ps, d =>
    let d' := p.emit d
    let (d'', tr) := emitLoop ps d'
    (d'', p :: tr)

/-- `LogManager::emit_all`. -/
def LogManager.emit_all {D : Type} (m : LogManager D) (d : D) :
    D × List (LogProcessors D) :=
  emitLoop m.processors d

/-- The `for processor in &self.processors { processor.force_flush()?; }`
loop of `LogManager::force_flush_all`: the `?` operator returns the first
`Err` immediately, so processors after it are not invoked. -/
def forceFlushLoop {D : Type} :
    List (LogProcessors D) → Except LogError Unit × List (LogProcessors D)
  | [] => (.ok (), [])
  | p :: ps =>
    match p.force_flush with
    | .error e => (.error e, [p])
    | .ok _ =>
      let (r, tr) := forceFlushLoop ps
      (r, p :: tr)

/-- `LogManager::force_flush_all`. -/
def LogManager.force_flush_all {D : Type} (m : LogManager D) :
    Except LogError Unit × List (LogProcessors D) :=
  forceFlushLoop m.processors

/-- The `for processor in &self.processors { processor.shutdown()?; }` loop
of `LogManager::shutdown_all`, with the same early return through `?`. -/
def shutdownLoop {D : Type} :
    List (LogProcessors D) → Except LogError Unit × List (LogProcessors D)
  | [] => (.ok (), [])
  | p :: ps =>
    match p.shutdown with
    | .error e => (.error e, [p])
    | .ok _ =>
      let (r, tr) := shutdownLoop ps
      (r, p :: tr)

/-- `LogManager::shutdown_all`. -/
def LogManager.shutdown_all {D : Type} (m : LogManager D) :
    Except LogError Unit × List (LogProcessors D) :=
  shutdownLoop m.processors

/-- `LogManager::set_resource_all` invokes `set_resource` on every
processor in order; every variant's `set_resource` is a no-op on the
record-level state, so only the invocation sequence is observable. -/
def LogManager.set_resource_all {D : Type} (m : LogManager D) :
    List (LogProcessors D) :=
  m.processors

/-- The `for` loop of `LogManager::event_enabled_all`: returns `true` at
the first processor whose `event_enabled` is `true` (early `return`),
`false` after exhausting the list. -/
def eventEnabledLoop {D : Type} (level : Severity) (target name : String) :
    List (LogProcessors D) → Bool × List (LogProcessors D)
  | [] => (false, [])
  | p :: ps =>
    if p.event_enabled level target name then (true, [p])
    else
      let (r, tr) := eventEnabledLoop level target name ps
      (r, p :: tr)

/-- `LogManager::event_enabled_all`. -/
def LogManager.event_enabled_all {D : Type} (m : LogManager D)
    (level : Severity) (target name : String) : Bool × List (LogProcessors D) :=
  eventEnabledLoop level target name m.processors

/-- A boxed processor whose `force_flush` and `shutdown` fail. -/
def failingProcessor (D : Type) : DynLogProcessor D :=
  { emit := fun d => d
    force_flush := .error ⟨⟩
    shutdown := .error ⟨⟩
    event_enabled := fun _ _ _ => true }

/-- A boxed processor over `Nat` records whose `emit` mutates the record by
incrementing it. -/
def incrementProcessor : DynLogProcessor Nat :=
  { emit := fun n => n + 1
    force_flush := .ok ()
    shutdown := .ok ()
    event_enabled := fun _ _ _ => true }

end OtelDemo

namespace OtelSdk

/-- C5: every `BatchConfig` produced by `BatchConfigBuilder::build`
(`Default` included, since it also goes through `build`) satisfies
`max_export_batch_size ≤ max_queue_size`; a requested batch size exceeding
the queue size is silently clamped down to the queue size, and the other
three fields pass through unchanged. -/
theorem batch_config_build_clamps (b : BatchConfigBuilder) :
    b.build.max_export_batch_size ≤ b.build.max_queue_size
    ∧ (b.max_queue_size < b.max_export_batch_size →
        b.build.max_export_batch_size = b.max_queue_size)
    ∧ b.build.max_queue_size = b.max_queue_size
    ∧ b.build.scheduled_delay = b.scheduled_delay
    ∧ b.build.max_export_timeout = b.max_export_timeout := by
  refine ⟨?_, ?_, rfl, rfl, rfl⟩ <;> simp [BatchConfigBuilder.build] <;> omega

/-- Witness for `batch_config_build_clamps` at a builder requesting a batch
size (10) larger than the queue size (3). -/
theorem batch_config_build_clamps_witness :
    (BatchConfigBuilder.build ⟨3, 5, 10, 7⟩).max_export_batch_size = 3 :=
  (batch_config_build_clamps ⟨3, 5, 10, 7⟩).2.1 (by decide)

/-- C9: `BatchConfigBuilder::default` starts each of the four options at
its default (`max_queue_size` 2048, `scheduled_delay` 1000 ms,
`max_export_batch_size` 512, `max_export_timeout` 30000 ms) and overrides
it with its `OTEL_BLRP_*` environment variable exactly when that variable
is present and parses as a number; an unset or unparseable value leaves
the default in place (`Option.getD`), and construction is a total
function — it never fails. -/
theorem default_builder_env_overrides (env : String → Option String) :
    (BatchConfigBuilder.defaultWith env).max_queue_size
      = ((env OTEL_BLRP_MAX_QUEUE_SIZE).bind
          (rustParseUnsigned USIZE_MAX)).getD OTEL_BLRP_MAX_QUEUE_SIZE_DEFAULT
    ∧ (BatchConfigBuilder.defaultWith env).max_export_batch_size
      = ((env OTEL_BLRP_MAX_EXPORT_BATCH_SIZE).bind
          (rustParseUnsigned USIZE_MAX)).getD OTEL_BLRP_MAX_EXPORT_BATCH_SIZE_DEFAULT
    ∧ (BatchConfigBuilder.defaultWith env).scheduled_delay
      = ((env OTEL_BLRP_SCHEDULE_DELAY).bind
          (rustParseUnsigned U64_MAX)).getD OTEL_BLRP_SCHEDULE_DELAY_DEFAULT
    ∧ (BatchConfigBuilder.defaultWith env).max_export_timeout
      = ((env OTEL_BLRP_EXPORT_TIMEOUT).bind
          (rustParseUnsigned U64_MAX)).getD OTEL_BLRP_EXPORT_TIMEOUT_DEFAULT := by
  unfold BatchConfigBuilder.defaultWith BatchConfigBuilder.init_from_env_vars
  rcases hq : (env OTEL_BLRP_MAX_QUEUE_SIZE).bind (rustParseUnsigned USIZE_MAX) with _ | vq <;>
    rcases hb : (env OTEL_BLRP_MAX_EXPORT_BATCH_SIZE).bind (rustParseUnsigned USIZE_MAX) with _ | vb <;>
      rcases hd : (env OTEL_BLRP_SCHEDULE_DELAY).bind (rustParseUnsigned U64_MAX) with _ | vd <;>
        rcases ht : (env OTEL_BLRP_EXPORT_TIMEOUT).bind (rustParseUnsigned U64_MAX) with _ | vt <;>
          simp [hq, hb, hd, ht]

end OtelSdk

namespace OtelSdk

/-- C2: `BatchLogProcessor::emit` enqueues via the non-blocking `try_send`
and is a total function with no error in its result type, so it never
blocks the caller, never propagates an error to it and never panics. When
the bounded queue is already at capacity the attempt fails immediately,
the record is dropped (the queue is unchanged) and exactly one failure is
reported to the global error sink; when the channel is open and below
capacity the `ExportLog` message is appended and nothing is reported. -/
theorem batch_emit_never_blocks {Rec : Type}
    (ch : BoundedChannel (BatchMessage Rec)) (r : Rec) :
    (ch.capacity ≤ ch.queue.length →
        (BatchLogProcessor.emit ch r).1.queue = ch.queue
        ∧ (BatchLogProcessor.emit ch r).2.length = 1)
    ∧ (ch.closed = false → ch.queue.length < ch.capacity →
        (BatchLogProcessor.emit ch r).1.queue = ch.queue ++ [.ExportLog r]
        ∧ (BatchLogProcessor.emit ch r).2 = []) := by
  constructor
  · intro hfull
    unfold BatchLogProcessor.emit try_send
    by_cases hc : ch.closed <;> simp [hc, hfull]
  · intro hopen hroom
    unfold BatchLogProcessor.emit try_send
    simp [hopen, Nat.not_le.mpr hroom]

/-- Witness for `batch_emit_never_blocks`: a full queue of capacity 1 drops
the record and reports one error. -/
theorem batch_emit_never_blocks_witness :
    (BatchLogProcessor.emit
        (⟨1, [.ExportLog 0], false⟩ : BoundedChannel (BatchMessage Nat)) 1).1.queue
      = [.ExportLog 0]
    ∧ (BatchLogProcessor.emit
        (⟨1, [.ExportLog 0], false⟩ : BoundedChannel (BatchMessage Nat)) 1).2.length = 1 :=
  (batch_emit_never_blocks ⟨1, [.ExportLog 0], false⟩ 1).1 (by decide)

/-- C4: for `BatchLogProcessor::force_flush` and
`BatchLogProcessor::shutdown`, when the `try_send` of the control message
fails because the channel is closed (the worker terminated), the call
returns the error immediately — the result does not depend on
`workerReply`, i.e. the reply channel is never waited on, in particular
not when the worker never replies; when the enqueue succeeds, the call
blocks until the worker's `ExportResult` arrives on the one-shot reply
channel and returns exactly that result. -/
theorem flush_shutdown_error_when_channel_closed {Rec : Type}
    (ch : BoundedChannel (BatchMessage Rec)) (workerReply : Option ExportResult) :
    (ch.closed = true →
        (BatchLogProcessor.force_flush ch workerReply).2
          = .error (.other TrySendError.channelClosed.message)
        ∧ (BatchLogProcessor.shutdown ch workerReply).2
          = .error (.other TrySendError.channelClosed.message))
    ∧ (∀ res : ExportResult, ch.closed = false → ch.queue.length < ch.capacity →
        workerReply = some res →
        (BatchLogProcessor.force_flush ch workerReply).2 = res
        ∧ (BatchLogProcessor.shutdown ch workerReply).2 = res) := by
  constructor
  · intro hclosed
    unfold BatchLogProcessor.force_flush BatchLogProcessor.shutdown try_send
    simp [hclosed]
  · intro res hopen hroom hreply
    unfold BatchLogProcessor.force_flush BatchLogProcessor.shutdown try_send
    simp [hopen, Nat.not_le.mpr hroom, hreply]

/-- Witness for `flush_shutdown_error_when_channel_closed`: on a closed
channel, `force_flush` returns the channel-closed error even though the
worker never replies (`workerReply = none`). -/
theorem flush_shutdown_error_when_channel_closed_witness :
    (BatchLogProcessor.force_flush
        (⟨4, [], true⟩ : BoundedChannel (BatchMessage Nat)) none).2
      = .error (.other TrySendError.channelClosed.message) :=
  ((flush_shutdown_error_when_channel_closed
      (⟨4, [], true⟩ : BoundedChannel (BatchMessage Nat)) none).1 rfl).1

/-- C8: `SimpleLogProcessor::shutdown` sets the `is_shutdown` flag,
forwards to the exporter's `shutdown` and returns `Ok(())`; afterwards
every `emit` (being a total function that returns no error) leaves the
processor — in particular the exporter's received-record list — unchanged
and reports nothing to the error sink, so the shut-down exporter is never
re-invoked, for any number of subsequent `emit` calls. -/
theorem simple_emit_noop_after_shutdown {Rec : Type}
    (p : SimpleLogProcessor Rec) (r : Rec) :
    (p.shutdown.1.is_shutdown = true
      ∧ p.shutdown.1.exporter.shutdownCalled = true
      ∧ p.shutdown.2 = .ok ())
    ∧ (∀ q : SimpleLogProcessor Rec, q.is_shutdown = true → q.emit r = (q, []))
    ∧ (∀ rs : List Rec, p.shutdown.1.emitMany rs = (p.shutdown.1, [])) := by
  refine ⟨⟨rfl, rfl, rfl⟩, ?_, ?_⟩
  · intro q hq
    unfold SimpleLogProcessor.emit
    simp [hq]
  · have noop : ∀ (rs : List Rec) (q : SimpleLogProcessor Rec),
        q.is_shutdown = true → q.emitMany rs = (q, []) := by
      intro rs
      induction rs with
      | nil => intro q _; rfl
      | cons x xs ih =>
        intro q hq
        unfold SimpleLogProcessor.emitMany SimpleLogProcessor.emit
        simp [hq, ih q hq]
    intro rs
    exact noop rs p.shutdown.1 rfl

/-- Witness for `simple_emit_noop_after_shutdown`: a shut-down processor's
`emit` changes nothing and reports nothing. -/
theorem simple_emit_noop_after_shutdown_witness :
    SimpleLogProcessor.emit
        (⟨⟨[], true, fun _ => .ok (), none⟩, true⟩ : SimpleLogProcessor Nat) 0
      = (⟨⟨[], true, fun _ => .ok (), none⟩, true⟩, []) :=
  (simple_emit_noop_after_shutdown
      (⟨⟨[], false, fun _ => .ok (), none⟩, false⟩ : SimpleLogProcessor Nat) 0).2.1
    ⟨⟨[], true, fun _ => .ok (), none⟩, true⟩ rfl

end OtelSdk

namespace OtelSdk

/-- A non-empty batch is handed to the exporter exactly once per
`export_with_timeout` call, whichever side of the race wins. -/
theorem export_with_timeout_calls {Rec : Type} (t : Nat)
    (exporter : List Rec → RaceOutcome) (batch : List Rec) (h : batch ≠ []) :
    (export_with_timeout t exporter batch).2 = [batch] := by
  rcases batch with _ | ⟨b, bs⟩
  · exact absurd rfl h
  · unfold export_with_timeout
    rcases hx : exporter (b :: bs) with res | _ <;> simp [hx]

/-- Behaviour of one iteration of the worker loop on an `ExportLog`
message: the record is appended; exactly when the new buffer length equals
`max_export_batch_size`, the whole buffer is exported and drained. -/
theorem worker_step_exportlog {Rec : Type} (cfg : BatchConfig)
    (exporter : List Rec → RaceOutcome) (st : WorkerState Rec) (r : Rec) :
    ((st.logs ++ [r]).length = cfg.max_export_batch_size →
        (worker_step cfg exporter st (.ExportLog r)).1.logs = []
        ∧ (worker_step cfg exporter st (.ExportLog r)).2.exports = [st.logs ++ [r]])
    ∧ ((st.logs ++ [r]).length ≠ cfg.max_export_batch_size →
        (worker_step cfg exporter st (.ExportLog r)).1.logs = st.logs ++ [r]
        ∧ (worker_step cfg exporter st (.ExportLog r)).2.exports = []) := by
  constructor
  · intro heq
    have heq' : st.logs.length + 1 = cfg.max_export_batch_size := by
      simpa using heq
    unfold worker_step
    simp only [List.length_append, List.length_singleton, heq', if_pos rfl]
    exact ⟨rfl, export_with_timeout_calls _ _ _ (by simp)⟩
  · intro hne
    have hne' : ¬ st.logs.length + 1 = cfg.max_export_batch_size := by
      simpa using hne
    unfold worker_step
    simp [hne', WorkerOutput.none]

/-- The worker's `ExportLog` branch never flips `terminated`. -/
theorem worker_step_exportlog_terminated {Rec : Type} (cfg : BatchConfig)
    (exporter : List Rec → RaceOutcome) (st : WorkerState Rec) (r : Rec) :
    (worker_step cfg exporter st (.ExportLog r)).1.terminated = st.terminated := by
  unfold worker_step
  by_cases h : st.logs.length + 1 = cfg.max_export_batch_size <;> simp [h]

/-- Unfolding of `worker_run` on a message consumed by a live worker. -/
theorem worker_run_cons {Rec : Type} (cfg : BatchConfig)
    (exporter : List Rec → RaceOutcome) (st : WorkerState Rec)
    (msg : BatchMessage Rec) (rest : List (BatchMessage Rec))
    (h : st.terminated = false) :
    worker_run cfg exporter st (msg :: rest)
      = ((worker_run cfg exporter (worker_step cfg exporter st msg).1 rest).1,
          (worker_step cfg exporter st msg).2.append
            (worker_run cfg exporter (worker_step cfg exporter st msg).1 rest).2) := by
  conv_lhs => rw [worker_run.eq_def]
  rw [h]
  rfl

/-- Size-triggered exports under a pure stream of `ExportLog` messages
(no timer ticks): starting below the threshold, after `m` records the
worker has exported `(len₀ + m) / n` batches and holds `(len₀ + m) % n`
records, where `n = max_export_batch_size`. -/
theorem worker_run_replicate {Rec : Type} (cfg : BatchConfig)
    (exporter : List Rec → RaceOutcome) (r : Rec)
    (hn : 1 ≤ cfg.max_export_batch_size) :
    ∀ (m : Nat) (st : WorkerState Rec), st.terminated = false →
      st.logs.length < cfg.max_export_batch_size →
      ((worker_run cfg exporter st
            (List.replicate m (.ExportLog r))).2.exports.length
          = (st.logs.length + m) / cfg.max_export_batch_size
        ∧ (worker_run cfg exporter st
            (List.replicate m (.ExportLog r))).1.logs.length
          = (st.logs.length + m) % cfg.max_export_batch_size
        ∧ (worker_run cfg exporter st
            (List.replicate m (.ExportLog r))).1.terminated = false) := by
  intro m
  induction m with
  | zero =>
    intro st hterm hlt
    simp [worker_run, WorkerOutput.none, Nat.div_eq_of_lt hlt,
      Nat.mod_eq_of_lt hlt, hterm]
  | succ m ih =>
    intro st hterm hlt
    rw [List.replicate_succ, worker_run_cons cfg exporter st _ _ hterm]
    set stp := (worker_step cfg exporter st (.ExportLog r)).1 with hstp
    have hterm' : stp.terminated = false := by
      rw [hstp, worker_step_exportlog_terminated, hterm]
    by_cases heq : (st.logs ++ [r]).length = cfg.max_export_batch_size
    · obtain ⟨h1, h2⟩ := (worker_step_exportlog cfg exporter st r).1 heq
      have hlt' : stp.logs.length < cfg.max_export_batch_size := by
        rw [hstp, h1]; simpa using hn
      obtain ⟨ih1, ih2, ih3⟩ := ih stp hterm' hlt'
      have hkey : st.logs.length + (m + 1)
          = m + cfg.max_export_batch_size := by
        have h3 : st.logs.length + 1 = cfg.max_export_batch_size := by
          simpa using heq
        omega
      refine ⟨?_, ?_, ih3⟩
      · show ((worker_step cfg exporter st (.ExportLog r)).2.append
            (worker_run cfg exporter stp (List.replicate m (.ExportLog r))).2).exports.length = _
        rw [WorkerOutput.append]
        simp only [List.length_append, h2, ih1, List.length_singleton]
        rw [hstp, h1]
        simp only [List.length_nil, Nat.zero_add]
        rw [hkey, Nat.add_div_right _ (by omega : 0 < cfg.max_export_batch_size)]
        omega
      · show (worker_run cfg exporter stp
            (List.replicate m (.ExportLog r))).1.logs.length = _
        rw [ih2, hstp, h1]
        simp only [List.length_nil, Nat.zero_add]
        rw [hkey, Nat.add_mod_right]
    · obtain ⟨h1, h2⟩ := (worker_step_exportlog cfg exporter st r).2 heq
      have hlen : stp.logs.length = st.logs.length + 1 := by
        rw [hstp, h1]; simp
      have hlt' : stp.logs.length < cfg.max_export_batch_size := by
        have h3 : ¬ st.logs.length + 1 = cfg.max_export_batch_size := by
          simpa using heq
        omega
      obtain ⟨ih1, ih2, ih3⟩ := ih stp hterm' hlt'
      have hkey : stp.logs.length + m = st.logs.length + (m + 1) := by omega
      refine ⟨?_, ?_, ih3⟩
      · show ((worker_step cfg exporter st (.ExportLog r)).2.append
            (worker_run cfg exporter stp (List.replicate m (.ExportLog r))).2).exports.length = _
        rw [WorkerOutput.append]
        simp only [List.length_append, h2, List.length_nil, Nat.zero_add]
        rw [ih1, hkey]
      · show (worker_run cfg exporter stp
            (List.replicate m (.ExportLog r))).1.logs.length = _
        rw [ih2, hkey]

end OtelSdk

namespace OtelSdk

/-- C1: in the batch worker loop, an `ExportLog` message appends the record
to the local buffer; exactly when the buffer length reaches
`max_export_batch_size` the whole buffer is exported and drained to empty
— a property of the `ExportLog` branch alone, independent of the timer
(no `Flush` message is involved) — and under a pure stream of `m` records
with no tick the size-triggered export fires `m / max_export_batch_size`
times. -/
theorem batch_worker_size_triggered_export {Rec : Type} (cfg : BatchConfig)
    (exporter : List Rec → RaceOutcome) (st : WorkerState Rec) (r : Rec)
    (hn : 1 ≤ cfg.max_export_batch_size) :
    ((st.logs ++ [r]).length = cfg.max_export_batch_size →
        (worker_step cfg exporter st (.ExportLog r)).1.logs = []
        ∧ (worker_step cfg exporter st (.ExportLog r)).2.exports = [st.logs ++ [r]])
    ∧ ((st.logs ++ [r]).length ≠ cfg.max_export_batch_size →
        (worker_step cfg exporter st (.ExportLog r)).1.logs = st.logs ++ [r]
        ∧ (worker_step cfg exporter st (.ExportLog r)).2.exports = [])
    ∧ (∀ m : Nat,
        (worker_run cfg exporter (initialWorkerState Rec)
            (List.replicate m (.ExportLog r))).2.exports.length
          = m / cfg.max_export_batch_size) := by
  refine ⟨(worker_step_exportlog cfg exporter st r).1,
    (worker_step_exportlog cfg exporter st r).2, ?_⟩
  intro m
  have h := worker_run_replicate cfg exporter r hn m (initialWorkerState Rec)
    rfl (by simpa [initialWorkerState] using hn)
  simpa [initialWorkerState] using h.1

/-- Witness for `batch_worker_size_triggered_export`: with
`max_export_batch_size = 2`, five records and no tick produce two
size-triggered exports. -/
theorem batch_worker_size_triggered_export_witness :
    (worker_run ⟨4, 0, 2, 5⟩ (fun _ => RaceOutcome.exporterFirst (.ok ()))
        (initialWorkerState Nat)
        (List.replicate 5 (.ExportLog 0))).2.exports.length = 2 := by
  have h := (batch_worker_size_triggered_export ⟨4, 0, 2, 5⟩
      (fun _ => RaceOutcome.exporterFirst (.ok ()))
      (initialWorkerState Nat) 0 (by decide)).2.2 5
  simpa using h

/-- C3: exporting a non-empty buffer races `exporter.export` against the
`max_export_timeout` delay. When the timeout completes first the export
returns `Err(LogError::ExportTimedOut(timeout))`, and the in-flight batch
was handed to the exporter exactly once (no retry); in every
export-triggering branch of the worker (`Flush` — with or without a reply
channel — and `Shutdown`) the buffer is left empty afterwards, so the
batch is never requeued. -/
theorem export_timeout_discards_batch {Rec : Type} (t : Nat)
    (exporter : List Rec → RaceOutcome) (batch : List Rec)
    (hne : batch ≠ []) (hto : exporter batch = .timeoutFirst) :
    (export_with_timeout t exporter batch).1 = .error (.exportTimedOut t)
    ∧ (export_with_timeout t exporter batch).2 = [batch]
    ∧ (∀ (cfg : BatchConfig) (st : WorkerState Rec) (hasReply : Bool),
        st.logs = batch →
          (worker_step cfg exporter st (.Flush hasReply)).1.logs = []
          ∧ (worker_step cfg exporter st (.Flush hasReply)).2.exports = [batch]
          ∧ (worker_step cfg exporter st .Shutdown).1.logs = []
          ∧ (worker_step cfg exporter st .Shutdown).2.exports = [batch]) := by
  have hmain : export_with_timeout t exporter batch
      = (.error (.exportTimedOut t), [batch]) := by
    rcases batch with _ | ⟨b, bs⟩
    · exact absurd rfl hne
    · unfold export_with_timeout
      simp [hto]
  refine ⟨by rw [hmain], by rw [hmain], ?_⟩
  intro cfg st hasReply hlogs
  cases hasReply <;>
    simp [worker_step, hlogs, export_with_timeout_calls _ _ _ hne]

/-- Witness for `export_timeout_discards_batch`: a one-record batch whose
race is lost to a 50 ms timeout yields `ExportTimedOut(50)`. -/
theorem export_timeout_discards_batch_witness :
    (export_with_timeout 50 (fun _ => RaceOutcome.timeoutFirst) [(7 : Nat)]).1
      = .error (.exportTimedOut 50) :=
  (export_timeout_discards_batch 50 (fun _ => RaceOutcome.timeoutFirst) [7]
      (by simp) rfl).1

end OtelSdk

namespace OtelDemo

/-- The `emit_all` loop invokes exactly the processors of the list, in list
order. -/
theorem emitLoop_trace {D : Type} (ps : List (LogProcessors D)) (d : D) :
    (emitLoop ps d).2 = ps := by
  induction ps generalizing d with
  | nil => rfl
  | cons p rest ih => simp [emitLoop, ih]

/-- Splitting the `emit_all` loop: the record leaving a leading segment
feeds the remaining segment. -/
theorem emitLoop_append {D : Type} (l1 l2 : List (LogProcessors D)) (d : D) :
    (emitLoop (l1 ++ l2) d).1 = (emitLoop l2 (emitLoop l1 d).1).1 := by
  induction l1 generalizing d with
  | nil => rfl
  | cons p rest ih => simp [emitLoop, ih]

/-- When every `force_flush` succeeds, the loop invokes all processors and
returns `Ok(())`. -/
theorem forceFlushLoop_all_ok {D : Type} (ps : List (LogProcessors D))
    (h : ∀ q ∈ ps, q.force_flush = .ok ()) :
    forceFlushLoop ps = (.ok (), ps) := by
  induction ps with
  | nil => rfl
  | cons p rest ih =>
    have hp := h p (List.mem_cons_self p rest)
    have hr := ih (fun q hq => h q (List.mem_cons_of_mem p hq))
    simp [forceFlushLoop, hp, hr]

/-- The `force_flush_all` loop stops at the first failing processor: it
returns that error, having invoked only the leading successes and the
failing processor. -/
theorem forceFlushLoop_first_err {D : Type} (pre post : List (LogProcessors D))
    (p : LogProcessors D) (e : LogError)
    (hpre : ∀ q ∈ pre, q.force_flush = .ok ()) (hp : p.force_flush = .error e) :
    forceFlushLoop (pre ++ p :: post) = (.error e, pre ++ [p]) := by
  induction pre with
  | nil => simp [forceFlushLoop, hp]
  | cons q rest ih =>
    have hq := hpre q (List.mem_cons_self q rest)
    have hr := ih (fun x hx => hpre x (List.mem_cons_of_mem q hx))
    simp [forceFlushLoop, hq, hr]

/-- When every `shutdown` succeeds, the loop invokes all processors and
returns `Ok(())`. -/
theorem shutdownLoop_all_ok {D : Type} (ps : List (LogProcessors D))
    (h : ∀ q ∈ ps, q.shutdown = .ok ()) :
    shutdownLoop ps = (.ok (), ps) := by
  induction ps with
  | nil => rfl
  | cons p rest ih =>
    have hp := h p (List.mem_cons_self p rest)
    have hr := ih (fun q hq => h q (List.mem_cons_of_mem p hq))
    simp [shutdownLoop, hp, hr]

/-- The `shutdown_all` loop stops at the first failing processor. -/
theorem shutdownLoop_first_err {D : Type} (pre post : List (LogProcessors D))
    (p : LogProcessors D) (e : LogError)
    (hpre : ∀ q ∈ pre, q.shutdown = .ok ()) (hp : p.shutdown = .error e) :
    shutdownLoop (pre ++ p :: post) = (.error e, pre ++ [p]) := by
  induction pre with
  | nil => simp [shutdownLoop, hp]
  | cons q rest ih =>
    have hq := hpre q (List.mem_cons_self q rest)
    have hr := ih (fun x hx => hpre x (List.mem_cons_of_mem q hx))
    simp [shutdownLoop, hq, hr]

/-- `add_processor` calls append to the initial processor list. -/
theorem foldl_add_processor {D : Type} (us : List (LogProcessors D)) :
    ∀ m : LogManager D,
      (us.foldl LogManager.add_processor m).processors = m.processors ++ us := by
  induction us with
  | nil => intro m; simp
  | cons p ps ih =>
    intro m
    rw [List.foldl_cons, ih]
    simp [LogManager.add_processor]

end OtelDemo

namespace OtelDemo

/-- C6 counterexample: in a `LogManager` with three processors whose second
one fails, `force_flush_all` propagates the failure but invokes only two
of the three processors — the `?` operator short-circuits, it does not
"call through to every remaining processor"; `shutdown_all` behaves the
same way. -/
theorem force_flush_all_short_circuit_cex :
    (LogManager.force_flush_all
        (⟨[.Simple, .Batch (failingProcessor Unit), .Processor1]⟩ :
          LogManager Unit)).1 = .error ⟨⟩
    ∧ (LogManager.force_flush_all
        (⟨[.Simple, .Batch (failingProcessor Unit), .Processor1]⟩ :
          LogManager Unit)).2.length = 2
    ∧ (LogManager.shutdown_all
        (⟨[.Simple, .Batch (failingProcessor Unit), .Processor1]⟩ :
          LogManager Unit)).2.length = 2
    ∧ (⟨[.Simple, .Batch (failingProcessor Unit), .Processor1]⟩ :
        LogManager Unit).processors.length = 3 :=
  ⟨rfl, rfl, rfl, rfl⟩

/-- C6 (amended): `LogManager::force_flush_all` and
`LogManager::shutdown_all` invoke processors in registration order and
propagate the first failure, but the `?` operator returns at that failure,
so the processors after the first failing one are NOT invoked
(short-circuit); when every processor succeeds, all of them are invoked
and `Ok(())` is returned. -/
theorem flush_shutdown_stop_at_first_failure {D : Type} (m : LogManager D) :
    ((∀ q ∈ m.processors, q.force_flush = .ok ()) →
        m.force_flush_all = (.ok (), m.processors))
    ∧ (∀ (pre post : List (LogProcessors D)) (p : LogProcessors D) (e : LogError),
        m.processors = pre ++ p :: post →
        (∀ q ∈ pre, q.force_flush = .ok ()) → p.force_flush = .error e →
        m.force_flush_all = (.error e, pre ++ [p]))
    ∧ ((∀ q ∈ m.processors, q.shutdown = .ok ()) →
        m.shutdown_all = (.ok (), m.processors))
    ∧ (∀ (pre post : List (LogProcessors D)) (p : LogProcessors D) (e : LogError),
        m.processors = pre ++ p :: post →
        (∀ q ∈ pre, q.shutdown = .ok ()) → p.shutdown = .error e →
        m.shutdown_all = (.error e, pre ++ [p])) := by
  refine ⟨?_, ?_, ?_, ?_⟩
  · intro h
    exact forceFlushLoop_all_ok m.processors h
  · intro pre post p e hsplit hpre hp
    unfold LogManager.force_flush_all
    rw [hsplit]
    exact forceFlushLoop_first_err pre post p e hpre hp
  · intro h
    exact shutdownLoop_all_ok m.processors h
  · intro pre post p e hsplit hpre hp
    unfold LogManager.shutdown_all
    rw [hsplit]
    exact shutdownLoop_first_err pre post p e hpre hp

/-- Witness for `flush_shutdown_stop_at_first_failure`: the failing second
processor stops the flush loop before the third processor. -/
theorem flush_shutdown_stop_at_first_failure_witness :
    LogManager.force_flush_all
        (⟨[.Simple, .Batch (failingProcessor Unit), .Processor1]⟩ :
          LogManager Unit)
      = (.error ⟨⟩, [.Simple, .Batch (failingProcessor Unit)]) :=
  (flush_shutdown_stop_at_first_failure
      (⟨[.Simple, .Batch (failingProcessor Unit), .Processor1]⟩ :
        LogManager Unit)).2.1
    [.Simple] [.Processor1] (.Batch (failingProcessor Unit)) ⟨⟩ rfl
    (by
      intro q hq
      rw [List.mem_singleton] at hq
      subst hq
      rfl)
    rfl

/-- C7: `LogManager::emit_all` invokes each processor's `emit` exactly
once, in registration order — the invocation trace is exactly the
processor list — threading the same mutable record: a processor `p` split
out as `processors = pre ++ p :: post` receives the record carrying
exactly the mutations of `pre` (in order), and its own mutation is what
the processors of `post` observe. -/
theorem emit_all_in_order_threading {D : Type} (m : LogManager D) (d : D) :
    (m.emit_all d).2 = m.processors
    ∧ (∀ (pre post : List (LogProcessors D)) (p : LogProcessors D),
        m.processors = pre ++ p :: post →
        (m.emit_all d).1 = (emitLoop post (p.emit (emitLoop pre d).1)).1) := by
  constructor
  · exact emitLoop_trace m.processors d
  · intro pre post p hsplit
    unfold LogManager.emit_all
    rw [hsplit, emitLoop_append]
    rfl

/-- Witness for `emit_all_in_order_threading`: a mutating boxed processor
between two pass-through processors increments the record, and the chain's
result shows the downstream processors observed the mutation. -/
theorem emit_all_in_order_threading_witness :
    (LogManager.emit_all
        (⟨[.Simple, .Batch incrementProcessor, .Processor2]⟩ : LogManager Nat)
        5).1 = 6 := by
  have h := (emit_all_in_order_threading
      (⟨[.Simple, .Batch incrementProcessor, .Processor2]⟩ : LogManager Nat)
      5).2 [.Simple] [.Processor2] (.Batch incrementProcessor) rfl
  rw [h]
  rfl

/-- C10: every `LogManager` built by `new()` followed by any sequence of
`add_processor` calls holds the built-in `Simple` processor as its first
entry: its processor list is `Simple ::` the user-registered processors
(so length n+1 for n registrations), and each of `emit_all`,
`force_flush_all`, `shutdown_all`, `set_resource_all` and
`event_enabled_all` invokes the built-in `Simple` processor first. -/
theorem manager_builtin_simple_first {D : Type} (us : List (LogProcessors D))
    (d : D) (level : Severity) (target nm : String) :
    ((us.foldl LogManager.add_processor (LogManager.new D)).processors
        = .Simple :: us)
    ∧ (us.foldl LogManager.add_processor (LogManager.new D)).processors.length
        = us.length + 1
    ∧ ((us.foldl LogManager.add_processor (LogManager.new D)).emit_all
        d).2.head? = some .Simple
    ∧ (us.foldl LogManager.add_processor
        (LogManager.new D)).force_flush_all.2.head? = some .Simple
    ∧ (us.foldl LogManager.add_processor
        (LogManager.new D)).shutdown_all.2.head? = some .Simple
    ∧ (us.foldl LogManager.add_processor
        (LogManager.new D)).set_resource_all.head? = some .Simple
    ∧ ((us.foldl LogManager.add_processor (LogManager.new D)).event_enabled_all
        level target nm).2.head? = some .Simple := by
  have hp : (us.foldl LogManager.add_processor (LogManager.new D)).processors
      = .Simple :: us := by
    rw [foldl_add_processor]
    rfl
  refine ⟨hp, by rw [hp]; rfl, ?_, ?_, ?_, ?_, ?_⟩
  · unfold LogManager.emit_all
    rw [hp, emitLoop_trace]
    rfl
  · unfold LogManager.force_flush_all
    rw [hp]
    rfl
  · unfold LogManager.shutdown_all
    rw [hp]
    rfl
  · unfold LogManager.set_resource_all
    rw [hp]
    rfl
  · unfold LogManager.event_enabled_all
    rw [hp]
    rfl

end OtelDemo
